import Mathlib

/-!
Verification of the document ingestion and chunking pipeline of
`src/document_processor.py` (AskMyDocs).

Python strings are modelled as `List Char` (`PyStr`).  Pure Python
functions become Lean functions; the `while` loop of `chunk_text` is
modelled both as a total recursive function (under the in-contract
precondition `overlap < chunk_size`) and as a fuel-indexed step machine
faithful to the loop, including Python's `int` arithmetic (`Int` start
offset) and negative-index slice semantics, so that termination and
non-termination can be stated.
-/

/-- Model of a Python string: a sequence of characters. -/
abbrev PyStr := List Char

/-- Python `str.strip()`: remove leading and trailing whitespace. -/
def pyStrip (s : PyStr) : PyStr :=
  ((s.dropWhile Char.isWhitespace).reverse.dropWhile Char.isWhitespace).reverse

/-- `chunk_text(text, chunk_size=1000, overlap=200)` from
`document_processor.py` lines 20-36, as a total function on its
documented domain `overlap < chunk_size`.  Each loop iteration emits
`text[start:min(start+chunk_size, len)]`; it breaks after emitting a
slice that reaches end-of-text, otherwise advances `start` by
`chunk_size - overlap`.  Viewed from the suffix `text[start:]`, one
iteration emits `take chunk_size` and recurses on
`drop (chunk_size - overlap)`; `chunkLoop` below certifies this against
the literal loop. -/
def chunk_text (text : PyStr) (chunk_size overlap : Nat) (h : overlap < chunk_size) :
    List PyStr :=
  if _hn : text.length = 0 then []
  else if text.length ≤ chunk_size then [text]
  else
    text.take chunk_size ::
      chunk_text (text.drop (chunk_size - overlap)) chunk_size overlap h
termination_by text.length
decreasing_by
  simp only [List.length_drop]
  omega

/-- `chunk_text` at its default arguments `chunk_size=1000`,
`overlap=200`, as called by the three process functions. -/
def chunk_text_default (text : PyStr) : List PyStr :=
  chunk_text text 1000 200 (by norm_num)

/-- Python slice index normalization for `s[a:b]`: a negative index counts
from the end (clamped below at 0), a non-negative index is clamped above
at the length. -/
def pyIdx (len : Nat) (i : Int) : Nat :=
  if i < 0 then ((len : Int) + i).toNat else min i.toNat len

/-- Python `text[a:b]`. -/
def pySlice (s : PyStr) (a b : Int) : PyStr :=
  (s.drop (pyIdx s.length a)).take (pyIdx s.length b - pyIdx s.length a)

/-- The literal `while start < text_length` loop of `chunk_text`
(lines 26-36), with explicit fuel.  `start` is an `Int`, as in Python,
since for `overlap > chunk_size` it decreases below 0.  `none` means the
fuel ran out, i.e. the loop had not terminated after that many
iterations. -/
def chunkLoop (text : PyStr) (chunk_size overlap : Nat) :
    Nat → Int → List PyStr → Option (List PyStr)
  | 0, _, _ => none
  | fuel + 1, start, chunks =>
    if start < (text.length : Int) then
      if min (start + chunk_size) (text.length : Int) = (text.length : Int) then
        some (chunks ++
          [pySlice text start (min (start + chunk_size) (text.length : Int))])
      else
        chunkLoop text chunk_size overlap fuel
          (start + ((chunk_size : Int) - overlap))
          (chunks ++
            [pySlice text start (min (start + chunk_size) (text.length : Int))])
    else some chunks

/-- Reassembly used by the lossless-chunking guarantee: the first chunk,
then every later chunk with its first `overlap` characters trimmed,
concatenated. -/
def reassemble (overlap : Nat) : List PyStr → PyStr
  | [] => []
  | c :: rest => c ++ (rest.map (List.drop overlap)).flatten

/-- The spec's declared set of chunk ids, `0..ceil((N-W)/(W-O))`
inclusive, as a count: `ceil(a/b) = floor((a+b-1)/b)` for `b > 0`,
with `Int.ediv` as floor division.  A non-positive count denotes the
empty range. -/
def claimedIdCount (N W O : Nat) : Int :=
  Int.ediv ((N : Int) - W + ((W : Int) - O) - 1) ((W : Int) - O) + 1

/-- The spec's declared chunk-id range `0..ceil((N-W)/(W-O))` inclusive,
as a list of integers (empty when the ceiling is negative). -/
def claimedIds (N W O : Nat) : List Int :=
  (List.range (claimedIdCount N W O).toNat).map Int.ofNat

/-- A chunk with its ingestion metadata (lines 71-78, 151-158, 199-206):
`{doc_id, filename, chunk_id, chunk_text}`. -/
structure Chunk where
  doc_id : PyStr
  filename : PyStr
  chunk_id : Nat
  chunk_text : PyStr
deriving DecidableEq

/-- The metadata-tagging loop `for idx, chunk in enumerate(chunks)`
shared by the three process functions. -/
def tag_chunks (doc_id filename : PyStr) (chunks : List PyStr) : List Chunk :=
  chunks.enum.map fun ic => ⟨doc_id, filename, ic.1, ic.2⟩

/-- `f"{chunk['doc_id']}_{chunk['chunk_id']}"` (line 353). -/
def formatOriginalId (doc_id : PyStr) (chunk_id : Nat) : PyStr :=
  doc_id ++ '_' :: (Nat.repr chunk_id).data

/-- The payload stored with each point (lines 348-354). -/
structure Payload where
  doc_id : PyStr
  filename : PyStr
  chunk_id : Nat
  text : PyStr
  original_id : PyStr
deriving DecidableEq

/-- The payload built for a chunk by `upload_chunks_to_qdrant`. -/
def payload_of (ch : Chunk) : Payload :=
  ⟨ch.doc_id, ch.filename, ch.chunk_id, ch.chunk_text,
    formatOriginalId ch.doc_id ch.chunk_id⟩

/-- An embedded point.  The numeric vector values are never inspected by
this pipeline, so the vector type is a parameter. -/
structure PointStruct (Vec : Type) where
  id : Nat
  vector : Vec
  payload : Payload
deriving DecidableEq

/-- Qdrant distance metrics (the code only ever selects `COSINE`). -/
inductive Distance where
  | cosine
  | euclid
  | dot
deriving DecidableEq

/-- `VectorParams(size=..., distance=...)`. -/
structure VectorParams where
  size : Nat
  distance : Distance
deriving DecidableEq

/-- A named collection's contents. -/
structure Collection (Vec : Type) where
  config : VectorParams
  points : List (PointStruct Vec)
deriving DecidableEq

/-- The vector store: an association of collection names to
collections. -/
abbrev Store (Vec : Type) := List (PyStr × Collection Vec)

/-- `VECTOR_SIZE = 384` (line 18). -/
def VECTOR_SIZE : Nat := 384

/-- `f"user_{user_id}_docs"` (lines 264, 289). -/
def collection_name (user_id : PyStr) : PyStr :=
  "user_".data ++ user_id ++ "_docs".data

/-- `client.collection_exists(collection_name=...)`. -/
def collection_exists (st : Store Vec) (name : PyStr) : Bool :=
  (st.lookup name).isSome

/-- `client.create_collection(...)`: registers a fresh, empty collection
under the name. -/
def create_collection (st : Store Vec) (name : PyStr) (cfg : VectorParams) :
    Store Vec :=
  (name, ⟨cfg, []⟩) :: st

/-- `create_user_collection` (lines 262-272): create the user's
collection with `VectorParams(size=VECTOR_SIZE, distance=Distance.COSINE)`
if it does not exist. -/
def create_user_collection (st : Store Vec) (user_id : PyStr) : Store Vec :=
  if collection_exists st (collection_name user_id) then st
  else create_collection st (collection_name user_id) ⟨VECTOR_SIZE, .cosine⟩

/-- Qdrant upsert semantics for one point: replace the stored point
carrying the same id, or append. -/
def upsertPoint (ps : List (PointStruct Vec)) (p : PointStruct Vec) :
    List (PointStruct Vec) :=
  if ps.any fun q => q.id = p.id then
    ps.map fun q => if q.id = p.id then p else q
  else ps ++ [p]

/-- `client.upsert(collection_name=..., points=...)` applied to the
store: upsert each point, in order, into the named collection. -/
def store_upsert (st : Store Vec) (name : PyStr)
    (pts : List (PointStruct Vec)) : Store Vec :=
  st.map fun nc =>
    if nc.1 = name then (nc.1, ⟨nc.2.config, pts.foldl upsertPoint nc.2.points⟩)
    else nc

/-- Whether `upload_chunks_to_qdrant`'s per-chunk loop skips a chunk:
`if not chunk_text or len(chunk_text.strip()) == 0: continue` (line 331),
or the embedding came back empty (line 339). -/
def chunk_skipped (embed : PyStr → Option Vec) (ch : Chunk) : Bool :=
  if ch.chunk_text = [] ∨ pyStrip ch.chunk_text = [] then true
  else (embed ch.chunk_text).isNone

/-- The point-building loop of `upload_chunks_to_qdrant`
(lines 325-361): for each chunk, skipping empty/whitespace text and
chunks whose embedding yields no result, build
`PointStruct(id=i, vector=..., payload=...)` where `i` is the loop
counter.  `embed` models `list(embedding_model.embed([text]))`: `none`
stands for an empty or failed embedding result (which the `except` arm
of the loop also turns into a skip). -/
def build_points (embed : PyStr → Option Vec) :
    Nat → List Chunk → List (PointStruct Vec)
  | _, [] => []
  | i, ch :: rest =>
    if ch.chunk_text = [] ∨ pyStrip ch.chunk_text = [] then
      build_points embed (i + 1) rest
    else
      match embed ch.chunk_text with
      | none => build_points embed (i + 1) rest
      | some v => ⟨i, v, payload_of ch⟩ :: build_points embed (i + 1) rest

/-- `upload_chunks_to_qdrant` (lines 286-383), with the store reachable
(the initial connection probe succeeding).  `upsert` models
`client.upsert`, which can fail; a failure is re-raised wrapped in
`Failed to upload chunks to vector database:`.  When no valid points
remain the function returns 0 without calling `upsert` at all
(lines 363-365). -/
def upload_chunks_to_qdrant (embed : PyStr → Option Vec)
    (upsert : Store Vec → PyStr → List (PointStruct Vec) →
      Except PyStr (Store Vec))
    (st : Store Vec) (chunks : List Chunk) (user_id : PyStr) :
    Except PyStr (Store Vec × Nat) :=
  let st1 := create_user_collection st user_id
  let points := build_points embed 0 chunks
  if points.isEmpty then .ok (st1, 0)
  else
    match upsert st1 (collection_name user_id) points with
    | .error e =>
        .error ("Failed to upload chunks to vector database: ".data ++ e)
    | .ok st2 => .ok (st2, points.length)

/-- The always-reachable `client.upsert`, performing the store update. -/
def qdrant_upsert (st : Store Vec) (name : PyStr)
    (pts : List (PointStruct Vec)) : Except PyStr (Store Vec) :=
  .ok (store_upsert st name pts)

/-- The sentinel returned when OCR extracts no text from an image
(line 65). -/
def IMAGE_SENTINEL : PyStr :=
  "[No text could be extracted from this image]".data

/-- The sentinel used when a PDF yields no extractable text
(line 144). -/
def PDF_SENTINEL : PyStr :=
  "[This PDF appears to contain no extractable text. It may be scanned or image-based.]".data

/-- The page loop of `process_pdf` (lines 129-138): `all_text` starts
empty; each page's `get_text()` either yields text, which is appended,
or raises, in which case the error is logged and the page is skipped.
A page is modelled by its `get_text()` outcome. -/
def extract_pdf_text (pages : List (Except PyStr PyStr)) : PyStr :=
  pages.foldl
    (fun all_text p =>
      match p with
      | .ok page_text => all_text ++ page_text
      | .error _ => all_text)
    []

/-- `process_pdf` (lines 89-170) from the point where the PDF has been
opened and its pages enumerated (file access and the temp-file retry are
outside the model): concatenate the page texts, fall back to the
sentinel if nothing non-whitespace was extracted, chunk, tag, upload
(`upload` models `upload_chunks_to_qdrant` for the given user), and
return the tagged chunks; any failure is re-raised as
`Error processing PDF:`. -/
def process_pdf (upload : List Chunk → Except PyStr Nat)
    (pages : List (Except PyStr PyStr)) (doc_id filename : PyStr) :
    Except PyStr (List Chunk) :=
  let all_text := extract_pdf_text pages
  let all_text := if pyStrip all_text = [] then PDF_SENTINEL else all_text
  let processed_chunks :=
    tag_chunks doc_id filename (chunk_text_default all_text)
  match upload processed_chunks with
  | .error e => .error ("Error processing PDF: ".data ++ e)
  | .ok _ => .ok processed_chunks

/-- `process_image` (lines 38-86) from the point where
`pytesseract.image_to_string` has produced `ocr_text` (decoding and file
access are outside the model): substitute the sentinel when OCR
extracted only whitespace, chunk, tag, upload, and return the tagged
chunks; any failure is re-raised as `Error processing image:`. -/
def process_image (upload : List Chunk → Except PyStr Nat)
    (ocr_text : PyStr) (doc_id filename : PyStr) :
    Except PyStr (List Chunk) :=
  let text := if pyStrip ocr_text = [] then IMAGE_SENTINEL else ocr_text
  let processed_chunks :=
    tag_chunks doc_id filename (chunk_text_default text)
  match upload processed_chunks with
  | .error e => .error ("Error processing image: ".data ++ e)
  | .ok _ => .ok processed_chunks

/-- `process_text_file` (lines 173-214) from the point where the file's
contents have been read into `text_content` (file access is outside the
model): chunk, tag, upload as the final step, and return the tagged
chunks; a failure — including an upload failure — is re-raised as
`Error processing text file:` instead of returning the chunks. -/
def process_text_file (upload : List Chunk → Except PyStr Nat)
    (text_content doc_id filename : PyStr) :
    Except PyStr (List Chunk) :=
  let processed_chunks :=
    tag_chunks doc_id filename (chunk_text_default text_content)
  match upload processed_chunks with
  | .error e => .error ("Error processing text file: ".data ++ e)
  | .ok _ => .ok processed_chunks

/-- Auxiliary: dropping `overlap` from every chunk (head included) and
concatenating yields the text with its first `overlap` characters
dropped. -/
theorem chunk_text_drop_join (text : PyStr) (W O : Nat) (h : O < W) :
    ((chunk_text text W O h).map (List.drop O)).flatten = text.drop O := by
  induction text, W, O, h using chunk_text.induct with
  | case1 t W O h ht => rw [chunk_text, dif_pos ht]; simp at ht ⊢; simp [ht]
  | case2 t W O h ht hle =>
    rw [chunk_text, dif_neg ht, if_pos hle]
    simp
  | case3 t W O h ht hgt ih =>
    rw [chunk_text, dif_neg ht, if_neg hgt]
    simp only [List.map_cons, List.flatten_cons, ih]
    have e1 : (t.drop (W - O)).drop O = t.drop W := by
      rw [List.drop_drop]; congr 1; omega
    have e2 : (t.take W).drop O = (t.drop O).take (W - O) := by
      rw [List.drop_take]
    have e3 : t.drop W = (t.drop O).drop (W - O) := by
      rw [List.drop_drop]; congr 1; omega
    rw [e1, e2, e3, List.take_append_drop]

/-- C1: for every text and every window/overlap with `overlap < window`,
the chunker is lossless — concatenating the first chunk with each later
chunk after trimming its first `overlap` characters reconstructs the
original text exactly. -/
theorem chunk_text_lossless (text : PyStr) (W O : Nat) (h : O < W) :
    reassemble O (chunk_text text W O h) = text := by
  rw [chunk_text]
  by_cases h0 : text.length = 0
  · rw [dif_pos h0]
    simpa [reassemble] using (List.length_eq_zero.mp h0).symm
  · rw [dif_neg h0]
    by_cases hle : text.length ≤ W
    · rw [if_pos hle]; simp [reassemble]
    · rw [if_neg hle]
      show text.take W ++
        ((chunk_text (text.drop (W - O)) W O h).map (List.drop O)).flatten = text
      rw [chunk_text_drop_join, List.drop_drop]
      have : W - O + O = W := by omega
      rw [this, List.take_append_drop]

/-- Witness for C1 at text `"abc"`, window 2, overlap 1. -/
theorem chunk_text_lossless_witness :
    reassemble 1 (chunk_text ['a', 'b', 'c'] 2 1 (by decide)) = ['a', 'b', 'c'] :=
  chunk_text_lossless ['a', 'b', 'c'] 2 1 (by decide)

/-- C6: a text strictly shorter than the window produces exactly one
chunk equal to the whole text, except the empty text, which produces the
empty sequence. -/
theorem chunk_text_short (text : PyStr) (W O : Nat) (h : O < W)
    (hlt : text.length < W) :
    chunk_text text W O h = if text = [] then [] else [text] := by
  rw [chunk_text]
  by_cases h0 : text.length = 0
  · rw [dif_pos h0, if_pos (List.length_eq_zero.mp h0)]
  · rw [dif_neg h0, if_pos (le_of_lt hlt),
      if_neg (fun hc => h0 (by simp [hc]))]

/-- Witness for C6 at text `"hi"` with the default window 1000 and
overlap 200. -/
theorem chunk_text_short_witness :
    chunk_text ['h', 'i'] 1000 200 (by decide) =
      if (['h', 'i'] : PyStr) = [] then [] else [['h', 'i']] :=
  chunk_text_short ['h', 'i'] 1000 200 (by decide) (by decide)

/-- A Python slice `s[a:b]` at non-negative indices is a drop/take of the
clamped indices. -/
theorem pySlice_nonneg (t : PyStr) (a b : Nat) :
    pySlice t (a : Int) (b : Int)
      = (t.drop (min a t.length)).take (min b t.length - min a t.length) := by
  unfold pySlice pyIdx
  have ha : ¬((a : Int) < 0) := by omega
  have hb : ¬((b : Int) < 0) := by omega
  rw [if_neg ha, if_neg hb]
  simp

/-- The slice emitted by one loop iteration starting at `s ≤ len` is
`take W` of the suffix `text[s:]`. -/
theorem pySlice_window (t : PyStr) (s W : Nat) (hs : s ≤ t.length) :
    pySlice t (s : Int) ((min (s + W) t.length : Nat) : Int)
      = (t.drop s).take W := by
  rw [pySlice_nonneg]
  rw [min_eq_left hs, min_eq_left (min_le_right (s + W) t.length)]
  rw [List.take_eq_take]
  simp only [List.length_drop]
  omega

/-- Bridge between the literal loop and the recursive `chunk_text`: with
`overlap < chunk_size` and enough fuel, the loop started at a
non-negative offset `s` finishes and emits exactly the chunks of the
suffix `text[s:]`. -/
theorem chunkLoop_eq_chunk_text (text : PyStr) (W O : Nat) (h : O < W) :
    ∀ (fuel s : Nat) (acc : List PyStr), s ≤ text.length →
      text.length - s < fuel →
      chunkLoop text W O fuel (s : Int) acc
        = some (acc ++ chunk_text (text.drop s) W O h) := by
  intro fuel
  induction fuel with
  | zero => intro s acc hs hf; exact absurd hf (by omega)
  | succ fuel ih =>
    intro s acc hs hf
    rw [chunkLoop]
    by_cases hlt : s < text.length
    · rw [if_pos (by exact_mod_cast hlt)]
      have hmin : min ((s : Int) + W) (text.length : Int)
          = ((min (s + W) text.length : Nat) : Int) := by
        push_cast; ring_nf
      by_cases hend : s + W ≥ text.length
      · -- the emitted slice reaches end-of-text: emit and break
        have he : min ((s : Int) + W) (text.length : Int)
            = (text.length : Int) := by
          rw [hmin]; exact_mod_cast min_eq_right hend
        rw [if_pos he, hmin, pySlice_window text s W hs]
        have hlen : (text.drop s).length ≤ W := by
          simp only [List.length_drop]; omega
        have hne : (text.drop s).length ≠ 0 := by
          simp only [List.length_drop]; omega
        rw [chunk_text, dif_neg hne, if_pos hlen,
          List.take_of_length_le hlen]
      · -- slice did not reach end-of-text: advance start and loop
        have he : ¬(min ((s : Int) + W) (text.length : Int)
            = (text.length : Int)) := by
          rw [hmin]
          intro hc
          have : min (s + W) text.length = text.length := by exact_mod_cast hc
          omega
        have hstep : (s : Int) + ((W : Int) - (O : Int))
            = ((s + (W - O) : Nat) : Int) := by
          push_cast [Nat.cast_sub h.le]; ring
        rw [if_neg he, hmin, pySlice_window text s W hs, hstep]
        have hne : (text.drop s).length ≠ 0 := by
          simp only [List.length_drop]; omega
        have hgt : ¬((text.drop s).length ≤ W) := by
          simp only [List.length_drop]; omega
        rw [chunk_text, dif_neg hne, if_neg hgt, List.drop_drop]
        rw [ih (s + (W - O)) _ (by omega) (by omega)]
        simp
    · rw [if_neg (by exact_mod_cast hlt)]
      have : text.drop s = [] := by
        apply List.drop_eq_nil_of_le; omega
      rw [this, chunk_text]
      simp

/-- When `overlap ≥ chunk_size` and the text is longer than the window,
no iteration of the loop can break (the emitted slice never reaches
end-of-text) and `start` never increases, so every fuel bound is
exhausted. -/
theorem chunkLoop_stuck (text : PyStr) (W O : Nat) (hWO : W ≤ O)
    (hlen : W < text.length) :
    ∀ (fuel : Nat) (start : Int), start ≤ 0 → ∀ acc : List PyStr,
      chunkLoop text W O fuel start acc = none := by
  intro fuel
  induction fuel with
  | zero => intro start hstart acc; rfl
  | succ fuel ih =>
    intro start hstart acc
    rw [chunkLoop]
    have h1 : start < (text.length : Int) := by omega
    have h2 : start + (W : Int) < (text.length : Int) := by omega
    have h3 : ¬(min (start + (W : Int)) (text.length : Int)
        = (text.length : Int)) := by
      rw [min_eq_left h2.le]; omega
    rw [if_pos h1, if_neg h3]
    exact ih (start + ((W : Int) - O)) (by omega) _

/-- C10: under the precondition `overlap < window` the chunker's loop
terminates — fuel `len(text) + 1` already suffices and the loop computes
`chunk_text` — whereas when `overlap ≥ window` and the text is longer
than the window, the loop never finishes for any amount of fuel. -/
theorem chunk_text_termination (text : PyStr) (W O : Nat) :
    (∀ h : O < W,
      chunkLoop text W O (text.length + 1) 0 []
        = some (chunk_text text W O h)) ∧
    (W ≤ O → W < text.length →
      ∀ fuel : Nat, chunkLoop text W O fuel 0 [] = none) := by
  constructor
  · intro h
    have := chunkLoop_eq_chunk_text text W O h (text.length + 1) 0 []
      (Nat.zero_le _) (by omega)
    simpa using this
  · intro hWO hlen fuel
    exact chunkLoop_stuck text W O hWO hlen fuel 0 le_rfl []

/-- Witness for C10: at text `"abc"` the loop with window 2, overlap 1
terminates with the two chunks, and with window 1, overlap 2 the loop
runs out of any fuel (here 5). -/
theorem chunk_text_termination_witness :
    chunkLoop ['a', 'b', 'c'] 2 1 4 0 []
        = some (chunk_text ['a', 'b', 'c'] 2 1 (by decide)) ∧
    chunkLoop ['a', 'b', 'c'] 1 2 5 0 [] = none :=
  ⟨(chunk_text_termination ['a', 'b', 'c'] 2 1).1 (by decide),
   (chunk_text_termination ['a', 'b', 'c'] 1 2).2 (by decide) (by decide) 5⟩

/-- Arithmetic step of the chunk count: removing one window advance
`W - O` from the text removes exactly one from the count, as long as the
text was longer than the window. -/
theorem chunkCount_step (N W O : Nat) (h : O < W) (hgt : W < N) :
    (N - W + (W - O) - 1) / (W - O)
      = ((N - (W - O)) - W + (W - O) - 1) / (W - O) + 1 := by
  have hS : 0 < W - O := by omega
  have key : N - W + (W - O) - 1 = (N - W - 1) + (W - O) := by omega
  rw [key, Nat.add_div_right _ hS]
  congr 1
  rcases le_or_lt (W - O) (N - W) with hc | hc
  · congr 1; omega
  · rw [Nat.div_eq_of_lt (by omega), Nat.div_eq_of_lt (by omega)]

/-- Number of chunks produced: `0` for the empty text, otherwise
`(N - W + (W-O) - 1) / (W-O) + 1` in truncated natural arithmetic. -/
theorem chunk_text_length (text : PyStr) (W O : Nat) (h : O < W) :
    (chunk_text text W O h).length =
      if text.length = 0 then 0
      else (text.length - W + (W - O) - 1) / (W - O) + 1 := by
  induction text, W, O, h using chunk_text.induct with
  | case1 t W O h ht => rw [chunk_text, dif_pos ht, if_pos ht]; rfl
  | case2 t W O h ht hle =>
    rw [chunk_text, dif_neg ht, if_pos hle, if_neg ht]
    have h1 : t.length - W = 0 := by omega
    rw [h1, Nat.zero_add, Nat.div_eq_of_lt (by omega)]
    rfl
  | case3 t W O h ht hgt ih =>
    rw [chunk_text, dif_neg ht, if_neg hgt, if_neg ht]
    have hne : ¬((t.drop (W - O)).length = 0) := by
      simp only [List.length_drop]; omega
    rw [List.length_cons, ih, if_neg hne]
    simp only [List.length_drop]
    rw [chunkCount_step t.length W O h (by omega)]

/-- Each produced chunk is the contiguous slice of the text starting at
`i * (W - O)` of length (at most) `W`. -/
theorem chunk_text_getElem (text : PyStr) (W O : Nat) (h : O < W) :
    ∀ i : Nat, i < (chunk_text text W O h).length →
      (chunk_text text W O h)[i]?
        = some ((text.drop (i * (W - O))).take W) := by
  induction text, W, O, h using chunk_text.induct with
  | case1 t W O h ht =>
    intro i hi
    rw [chunk_text, dif_pos ht] at hi
    exact absurd hi (by simp)
  | case2 t W O h ht hle =>
    intro i hi
    rw [chunk_text, dif_neg ht, if_pos hle] at hi ⊢
    have hi0 : i = 0 := by simp at hi; omega
    subst hi0
    simp [List.take_of_length_le hle]
  | case3 t W O h ht hgt ih =>
    intro i hi
    rw [chunk_text, dif_neg ht, if_neg hgt] at hi ⊢
    match i with
    | 0 => simp
    | Nat.succ j =>
      rw [List.getElem?_cons_succ, ih j (by simpa using hi), List.drop_drop]
      congr 3
      rw [Nat.succ_mul]
      exact Nat.add_comm _ _

/-- Positive chunk count for nonempty text. -/
theorem chunk_text_pos (text : PyStr) (W O : Nat) (h : O < W)
    (hne : text.length ≠ 0) : 0 < (chunk_text text W O h).length := by
  rw [chunk_text_length, if_neg hne]; exact Nat.succ_pos _

/-- Consecutive chunks overlap in exactly `O` characters: the suffix of
length `O` of a non-final chunk equals the prefix of length `O` of its
successor. -/
theorem chunk_text_consecutive (text : PyStr) (W O : Nat) (h : O < W) :
    ∀ (i : Nat) (ci cj : PyStr),
      (chunk_text text W O h)[i]? = some ci →
      (chunk_text text W O h)[i + 1]? = some cj →
      ci.drop (W - O) = cj.take O ∧ (ci.drop (W - O)).length = O := by
  induction text, W, O, h using chunk_text.induct with
  | case1 t W O h ht =>
    intro i ci cj hci hcj
    rw [chunk_text, dif_pos ht] at hci
    simp at hci
  | case2 t W O h ht hle =>
    intro i ci cj hci hcj
    rw [chunk_text, dif_neg ht, if_pos hle] at hcj
    rw [List.getElem?_cons_succ] at hcj
    simp at hcj
  | case3 t W O h ht hgt ih =>
    intro i ci cj hci hcj
    rw [chunk_text, dif_neg ht, if_neg hgt] at hci hcj
    match i with
    | 0 =>
      rw [List.getElem?_cons_zero, Option.some_inj] at hci
      rw [List.getElem?_cons_succ] at hcj
      have hlen : 0 < (chunk_text (t.drop (W - O)) W O h).length :=
        chunk_text_pos _ _ _ _ (by simp only [List.length_drop]; omega)
      have hhead := chunk_text_getElem (t.drop (W - O)) W O h 0 hlen
      rw [hcj, Option.some_inj] at hhead
      subst hci
      rw [hhead]
      constructor
      · rw [List.drop_take]
        have hWO : W - (W - O) = O := by omega
        rw [hWO, Nat.zero_mul, List.drop_zero, List.take_take,
          min_eq_left h.le]
      · simp only [List.length_drop, List.length_take]
        omega
    | Nat.succ j =>
      rw [List.getElem?_cons_succ] at hci hcj
      exact ih j ci cj hci hcj

/-- The spec's id-range count agrees with the code's chunk count when
the text is empty or longer than the overlap. -/
theorem claimedIdCount_toNat (N W O : Nat) (h : O < W)
    (hN : N = 0 ∨ O < N) :
    (claimedIdCount N W O).toNat =
      if N = 0 then 0 else (N - W + (W - O) - 1) / (W - O) + 1 := by
  have hS : (0 : Int) < (W : Int) - O := by omega
  rcases hN with rfl | hON
  · rw [if_pos rfl]
    unfold claimedIdCount
    have hnum : ((0 : Nat) : Int) - W + ((W : Int) - O) - 1
        = -((O : Int) + 1) := by push_cast; ring
    rw [hnum]
    have hneg : (-((O : Int) + 1)).ediv ((W : Int) - O) < 0 :=
      Int.ediv_neg' (by omega) hS
    omega
  · rw [if_neg (by omega)]
    by_cases hW : W ≤ N
    · unfold claimedIdCount
      have hnum : (N : Int) - W + ((W : Int) - O) - 1
          = ((N - W + (W - O) - 1 : Nat) : Int) := by omega
      rw [hnum]
      have hSc : ((W : Int) - O) = ((W - O : Nat) : Int) := by omega
      rw [hSc]
      have hdiv : ((N - W + (W - O) - 1 : Nat) : Int).ediv ((W - O : Nat) : Int)
          = (((N - W + (W - O) - 1) / (W - O) : Nat) : Int) := rfl
      rw [hdiv, ← Nat.cast_add_one, Int.toNat_natCast]
    · unfold claimedIdCount
      push_neg at hW
      have hz : Int.ediv ((N : Int) - W + ((W : Int) - O) - 1)
          ((W : Int) - O) = 0 :=
        Int.ediv_eq_zero_of_lt (by omega) (by omega)
      rw [hz]
      have h0 : N - W = 0 := by omega
      rw [h0, Nat.zero_add, Nat.div_eq_of_lt (by omega)]
      rfl

/-- C3 counterexample: for the 1-character text `"a"` with the default
window 1000 and overlap 200, the claimed id range
`0..ceil((1-1000)/800)` = `0..-1` is empty, yet the code produces one
chunk, with chunk_id 0. -/
theorem chunk_ids_claim_false :
    ¬ ((List.range (chunk_text ['a'] 1000 200 (by norm_num)).length).map
        Int.ofNat = claimedIds 1 1000 200) := by
  have hev : ∀ hp : (200 : Nat) < 1000,
      chunk_text ['a'] 1000 200 hp = [['a']] := by
    intro hp
    rw [chunk_text]
    norm_num
  rw [hev]
  decide

/-- C3 (amended): for a text of `N` characters with `O < W`, the
chunk_id values (positions `0..len-1`) are exactly the claimed range
`0..ceil((N-W)/(W-O))` inclusive whenever `N = 0` or `N > O` (for
`0 < N ≤ O` the formula's range is empty but the code still produces the
single chunk id 0); each chunk is the contiguous slice of the text
starting at `i*(W-O)`; and each pair of consecutive chunks overlaps in
exactly `O` characters. -/
theorem chunk_ids_characterization (text : PyStr) (W O : Nat) (h : O < W) :
    ((text.length = 0 ∨ O < text.length) →
      (List.range (chunk_text text W O h).length).map Int.ofNat
        = claimedIds text.length W O) ∧
    (text.length ≠ 0 → text.length ≤ O →
      (chunk_text text W O h).length = 1) ∧
    (∀ i : Nat, i < (chunk_text text W O h).length →
      (chunk_text text W O h)[i]?
        = some ((text.drop (i * (W - O))).take W)) ∧
    (∀ (i : Nat) (ci cj : PyStr),
      (chunk_text text W O h)[i]? = some ci →
      (chunk_text text W O h)[i + 1]? = some cj →
      ci.drop (W - O) = cj.take O ∧ (ci.drop (W - O)).length = O) := by
  refine ⟨fun hN => ?_, fun hne hle => ?_,
    chunk_text_getElem text W O h, chunk_text_consecutive text W O h⟩
  · unfold claimedIds
    rw [claimedIdCount_toNat _ _ _ h hN, chunk_text_length]
  · rw [chunk_text_length, if_neg hne]
    have h0 : text.length - W = 0 := by omega
    rw [h0, Nat.zero_add, Nat.div_eq_of_lt (by omega)]

/-- Witness for the amended C3 at text `"abc"`, window 2, overlap 1: the
produced ids `[0, 1]` match the claimed range `0..ceil((3-2)/1)`. -/
theorem chunk_ids_characterization_witness :
    (List.range (chunk_text ['a', 'b', 'c'] 2 1 (by norm_num)).length).map
      Int.ofNat = claimedIds 3 2 1 :=
  (chunk_ids_characterization ['a', 'b', 'c'] 2 1 (by norm_num)).1
    (Or.inr (by norm_num))

/-- C9: `create_user_collection` is idempotent: when the user's
collection exists it returns with the store unchanged (so contents and
point counts are untouched, and nothing is raised); applying it twice
equals applying it once; and a freshly created collection is empty with
dimension 384 and cosine distance. -/
theorem create_user_collection_idempotent {Vec : Type} (st : Store Vec)
    (u : PyStr) :
    (collection_exists st (collection_name u) = true →
      create_user_collection st u = st) ∧
    create_user_collection (create_user_collection st u) u
      = create_user_collection st u ∧
    (collection_exists st (collection_name u) = false →
      (create_user_collection st u).lookup (collection_name u)
        = some ⟨⟨384, Distance.cosine⟩, []⟩) := by
  refine ⟨fun hex => ?_, ?_, fun hnex => ?_⟩
  · unfold create_user_collection
    rw [if_pos hex]
  · by_cases hex : collection_exists st (collection_name u) = true
    · unfold create_user_collection
      rw [if_pos hex, if_pos hex]
    · have h1 : create_user_collection st u
          = create_collection st (collection_name u) ⟨VECTOR_SIZE, .cosine⟩ := by
        unfold create_user_collection
        rw [if_neg hex]
      rw [h1]
      have h2 : collection_exists
          (create_collection st (collection_name u) ⟨VECTOR_SIZE, .cosine⟩)
          (collection_name u) = true := by
        simp [collection_exists, create_collection, List.lookup]
      unfold create_user_collection
      rw [if_pos h2]
  · unfold create_user_collection
    rw [if_neg (by simp [hnex])]
    simp [create_collection, List.lookup, VECTOR_SIZE]

/-- Witness for C9: creating the collection for user `"alice"` in the
empty store registers an empty collection with dimension 384 and cosine
distance. -/
theorem create_user_collection_idempotent_witness :
    (create_user_collection ([] : Store Unit) "alice".data).lookup
        (collection_name "alice".data)
      = some ⟨⟨384, Distance.cosine⟩, []⟩ :=
  (create_user_collection_idempotent ([] : Store Unit) "alice".data).2.2
    (by decide)

/-- The payloads of the points built by the upload loop are exactly the
payloads of the chunks that were not skipped, in order. -/
theorem build_points_payloads {Vec : Type} (embed : PyStr → Option Vec) :
    ∀ (chunks : List Chunk) (i : Nat),
      (build_points embed i chunks).map (fun p => p.payload)
        = (chunks.filter fun ch => !(chunk_skipped embed ch)).map payload_of := by
  intro chunks
  induction chunks with
  | nil => intro i; rfl
  | cons ch rest ih =>
    intro i
    rw [build_points, List.filter_cons]
    by_cases h1 : ch.chunk_text = [] ∨ pyStrip ch.chunk_text = []
    · have hskip : chunk_skipped embed ch = true := by
        unfold chunk_skipped; rw [if_pos h1]
      rw [if_pos h1, hskip, ih]
      rfl
    · rw [if_neg h1]
      cases he : embed ch.chunk_text with
      | none =>
        have hskip : chunk_skipped embed ch = true := by
          unfold chunk_skipped; rw [if_neg h1, he]; rfl
        rw [hskip, ih]
        rfl
      | some v =>
        have hskip : chunk_skipped embed ch = false := by
          unfold chunk_skipped; rw [if_neg h1, he]; rfl
        rw [hskip]
        simp only [Bool.not_false, if_pos]
        rw [List.map_cons, List.map_cons, ih]

/-- The number of points built equals the number of non-skipped
chunks. -/
theorem build_points_length {Vec : Type} (embed : PyStr → Option Vec)
    (chunks : List Chunk) (i : Nat) :
    (build_points embed i chunks).length
      = (chunks.filter fun ch => !(chunk_skipped embed ch)).length := by
  have h := congrArg List.length (build_points_payloads embed chunks i)
  simpa using h

/-- C2: `upload_chunks_to_qdrant` (with the store reachable) skips —
without failing — every chunk whose text is empty or whitespace-only and
every chunk whose embedding yields no result; it returns the count of
points actually persisted, which is the number of non-skipped chunks and
hence at most `len(chunks)`; when every chunk is skipped it returns 0
rather than raising; and the persisted payloads are exactly those of the
non-skipped chunks. -/
theorem upload_chunks_skip_policy {Vec : Type} (embed : PyStr → Option Vec)
    (st : Store Vec) (chunks : List Chunk) (u : PyStr) :
    (upload_chunks_to_qdrant embed qdrant_upsert st chunks u).map
        (fun r => r.2)
      = Except.ok ((chunks.filter fun ch => !(chunk_skipped embed ch)).length) ∧
    (chunks.filter fun ch => !(chunk_skipped embed ch)).length
      ≤ chunks.length ∧
    ((∀ ch ∈ chunks, chunk_skipped embed ch = true) →
      upload_chunks_to_qdrant embed qdrant_upsert st chunks u
        = .ok (create_user_collection st u, 0)) ∧
    (build_points embed 0 chunks).map (fun p => p.payload)
      = (chunks.filter fun ch => !(chunk_skipped embed ch)).map payload_of := by
  refine ⟨?_, List.length_filter_le _ _, fun hall => ?_, 
    build_points_payloads embed chunks 0⟩
  · unfold upload_chunks_to_qdrant
    by_cases hemp : (build_points embed 0 chunks).isEmpty
    · rw [if_pos hemp]
      have h0 : (build_points embed 0 chunks).length = 0 := by
        rw [List.isEmpty_iff] at hemp
        rw [hemp]
        rfl
      rw [build_points_length] at h0
      rw [← h0]
      rfl
    · rw [if_neg hemp]
      unfold qdrant_upsert
      rw [build_points_length]
      rfl
  · have hnil : (chunks.filter fun ch => !(chunk_skipped embed ch)) = [] := by
      rw [List.filter_eq_nil_iff]
      intro ch hch
      rw [hall ch hch]
      exact Bool.not_true.symm ▸ (by simp [hall ch hch])
    have h0 : build_points embed 0 chunks = [] :=
      List.length_eq_zero.mp (by rw [build_points_length, hnil]; rfl)
    unfold upload_chunks_to_qdrant
    rw [if_pos (by rw [h0]; rfl)]

/-- Witness for C2: a batch consisting of one whitespace-only chunk is
skipped entirely and the call returns 0 without raising. -/
theorem upload_chunks_skip_policy_witness :
    upload_chunks_to_qdrant (fun _ => some ()) qdrant_upsert
        ([] : Store Unit) [⟨"d".data, "f".data, 0, "   ".data⟩] "u".data
      = .ok (create_user_collection ([] : Store Unit) "u".data, 0) :=
  (upload_chunks_skip_policy (fun _ => some ()) ([] : Store Unit)
    [⟨"d".data, "f".data, 0, "   ".data⟩] "u".data).2.2.1 (by decide)

/-- Every point built from position `i` on carries an id ≥ `i`. -/
theorem build_points_id_lb {Vec : Type} (embed : PyStr → Option Vec) :
    ∀ (chunks : List Chunk) (i : Nat),
      ∀ p ∈ build_points embed i chunks, i ≤ p.id := by
  intro chunks
  induction chunks with
  | nil => intro i p hp; exact absurd hp (by simp [build_points])
  | cons ch rest ih =>
    intro i p hp
    rw [build_points] at hp
    by_cases h1 : ch.chunk_text = [] ∨ pyStrip ch.chunk_text = []
    · rw [if_pos h1] at hp
      exact le_trans (Nat.le_succ i) (ih (i + 1) p hp)
    · rw [if_neg h1] at hp
      cases he : embed ch.chunk_text with
      | none =>
        rw [he] at hp
        exact le_trans (Nat.le_succ i) (ih (i + 1) p hp)
      | some v =>
        rw [he] at hp
        rcases List.mem_cons.mp hp with rfl | hp'
        · exact le_refl _
        · exact le_trans (Nat.le_succ i) (ih (i + 1) p hp')

/-- Every point built comes from one of the batch's chunks, with that
chunk's payload. -/
theorem build_points_payload_mem {Vec : Type} (embed : PyStr → Option Vec) :
    ∀ (chunks : List Chunk) (i : Nat),
      ∀ p ∈ build_points embed i chunks,
        ∃ ch ∈ chunks, p.payload = payload_of ch := by
  intro chunks
  induction chunks with
  | nil => intro i p hp; exact absurd hp (by simp [build_points])
  | cons ch rest ih =>
    intro i p hp
    rw [build_points] at hp
    by_cases h1 : ch.chunk_text = [] ∨ pyStrip ch.chunk_text = []
    · rw [if_pos h1] at hp
      obtain ⟨c, hc, hpc⟩ := ih (i + 1) p hp
      exact ⟨c, List.mem_cons_of_mem _ hc, hpc⟩
    · rw [if_neg h1] at hp
      cases he : embed ch.chunk_text with
      | none =>
        rw [he] at hp
        obtain ⟨c, hc, hpc⟩ := ih (i + 1) p hp
        exact ⟨c, List.mem_cons_of_mem _ hc, hpc⟩
      | some v =>
        rw [he] at hp
        rcases List.mem_cons.mp hp with rfl | hp'
        · exact ⟨ch, List.mem_cons_self _ _, rfl⟩
        · obtain ⟨c, hc, hpc⟩ := ih (i + 1) p hp'
          exact ⟨c, List.mem_cons_of_mem _ hc, hpc⟩

/-- C4 (amended): within a single `upload_chunks_to_qdrant` call the
built points carry strictly increasing — hence pairwise distinct — ids,
and every point's payload comes from a batch chunk, with `original_id`
recording exactly the `(doc_id, chunk_id)` pairing; across separate
calls the loop counter restarts at 0, so ids repeat and a later call's
point overwrites an earlier call's point with the same id. -/
theorem point_ids_unique_within_call {Vec : Type}
    (embed : PyStr → Option Vec) (chunks : List Chunk) :
    List.Pairwise (fun p q => p.id < q.id) (build_points embed 0 chunks) ∧
    ∀ p ∈ build_points embed 0 chunks,
      p.payload.original_id
        = formatOriginalId p.payload.doc_id p.payload.chunk_id ∧
      ∃ ch ∈ chunks, p.payload = payload_of ch := by
  constructor
  · have key : ∀ (cs : List Chunk) (i : Nat),
        List.Pairwise (fun p q => p.id < q.id) (build_points embed i cs) := by
      intro cs
      induction cs with
      | nil => intro i; exact List.Pairwise.nil
      | cons ch rest ih =>
        intro i
        rw [build_points]
        by_cases h1 : ch.chunk_text = [] ∨ pyStrip ch.chunk_text = []
        · rw [if_pos h1]; exact ih (i + 1)
        · rw [if_neg h1]
          cases he : embed ch.chunk_text with
          | none => exact ih (i + 1)
          | some v =>
            refine List.Pairwise.cons (fun q hq => ?_) (ih (i + 1))
            exact lt_of_lt_of_le (Nat.lt_succ_self i)
              (build_points_id_lb embed rest (i + 1) q hq)
    exact key chunks 0
  · intro p hp
    obtain ⟨ch, hch, hpc⟩ := build_points_payload_mem embed chunks 0 p hp
    refine ⟨?_, ch, hch, hpc⟩
    rw [hpc]
    rfl

/-- Witness for the amended C4 at a one-chunk batch. -/
theorem point_ids_unique_within_call_witness :
    (⟨0, (), payload_of ⟨"d".data, "f".data, 0, "hi".data⟩⟩ :
        PointStruct Unit).payload.original_id
      = formatOriginalId
          (⟨0, (), payload_of ⟨"d".data, "f".data, 0, "hi".data⟩⟩ :
            PointStruct Unit).payload.doc_id
          (⟨0, (), payload_of ⟨"d".data, "f".data, 0, "hi".data⟩⟩ :
            PointStruct Unit).payload.chunk_id ∧
    ∃ ch ∈ [(⟨"d".data, "f".data, 0, "hi".data⟩ : Chunk)],
      (⟨0, (), payload_of ⟨"d".data, "f".data, 0, "hi".data⟩⟩ :
        PointStruct Unit).payload = payload_of ch :=
  (point_ids_unique_within_call (fun _ => some ())
    [⟨"d".data, "f".data, 0, "hi".data⟩]).2
    ⟨0, (), payload_of ⟨"d".data, "f".data, 0, "hi".data⟩⟩ (by decide)

/-- C4 counterexample: two successive `upload_chunks_to_qdrant` calls
for the same user each persist a point with id 0 into the same
collection — the ids are not unique across calls, and the second call's
point silently overwrites the first call's point (whose distinct payload
is gone from the collection afterwards). -/
theorem point_ids_collide_across_calls :
    upload_chunks_to_qdrant (fun _ => some ()) qdrant_upsert
        ([] : Store Unit) [⟨"d1".data, "f1".data, 0, "hello".data⟩] "u".data
      = .ok ([(collection_name "u".data,
          ⟨⟨384, Distance.cosine⟩,
            [⟨0, (), payload_of ⟨"d1".data, "f1".data, 0, "hello".data⟩⟩]⟩)],
          1) ∧
    upload_chunks_to_qdrant (fun _ => some ()) qdrant_upsert
        [(collection_name "u".data,
          ⟨⟨384, Distance.cosine⟩,
            [⟨0, (), payload_of ⟨"d1".data, "f1".data, 0, "hello".data⟩⟩]⟩)]
        [⟨"d2".data, "f2".data, 0, "world".data⟩] "u".data
      = .ok ([(collection_name "u".data,
          ⟨⟨384, Distance.cosine⟩,
            [⟨0, (), payload_of ⟨"d2".data, "f2".data, 0, "world".data⟩⟩]⟩)],
          1) ∧
    payload_of (⟨"d1".data, "f1".data, 0, "hello".data⟩ : Chunk)
      ≠ payload_of ⟨"d2".data, "f2".data, 0, "world".data⟩ :=
  ⟨rfl, rfl, by decide⟩

/-- C5 counterexample: when the final persistence step fails, the caller
receives the wrapped error — not the chunk sequence. -/
theorem process_text_file_claim_false :
    (process_text_file (fun _ => Except.error "persistence failure".data)
        "hi".data "d1".data "a.txt".data).isOk = false := rfl

/-- C5 (amended): `process_text_file` returns the tagged chunk sequence
exactly when the final persistence step succeeds; a persistence failure
propagates as a fatal `Error processing text file:` error and the caller
receives no chunk sequence. -/
theorem process_text_file_persistence (upload : List Chunk → Except PyStr Nat)
    (text d fn : PyStr) :
    (∀ n : Nat,
      upload (tag_chunks d fn (chunk_text_default text)) = .ok n →
      process_text_file upload text d fn
        = .ok (tag_chunks d fn (chunk_text_default text))) ∧
    (∀ e : PyStr,
      upload (tag_chunks d fn (chunk_text_default text)) = .error e →
      process_text_file upload text d fn
        = .error ("Error processing text file: ".data ++ e)) := by
  constructor
  · intro n hn
    show (match upload (tag_chunks d fn (chunk_text_default text)) with
      | Except.error e => Except.error
          ("Error processing text file: ".data ++ e)
      | Except.ok _ => Except.ok (tag_chunks d fn (chunk_text_default text)))
      = _
    rw [hn]
  · intro e he
    show (match upload (tag_chunks d fn (chunk_text_default text)) with
      | Except.error e => Except.error
          ("Error processing text file: ".data ++ e)
      | Except.ok _ => Except.ok (tag_chunks d fn (chunk_text_default text)))
      = _
    rw [he]

/-- Witness for the amended C5 at text `"hi"` with an upload that
reports one persisted point. -/
theorem process_text_file_persistence_witness :
    process_text_file (fun _ => Except.ok 1) "hi".data "d1".data "a.txt".data
      = .ok (tag_chunks "d1".data "a.txt".data
          (chunk_text_default "hi".data)) :=
  (process_text_file_persistence (fun _ => Except.ok 1) "hi".data "d1".data
    "a.txt".data).1 1 rfl

/-- The page-accumulation loop appends exactly the texts of the pages
whose extraction succeeded. -/
theorem extract_pdf_text_go (pages : List (Except PyStr PyStr)) :
    ∀ acc : PyStr,
      pages.foldl
        (fun all_text p =>
          match p with
          | .ok page_text => all_text ++ page_text
          | .error _ => all_text)
        acc
      = acc ++ (pages.filterMap Except.toOption).flatten := by
  induction pages with
  | nil => intro acc; simp
  | cons p rest ih =>
    intro acc
    cases p with
    | ok t =>
      rw [List.foldl_cons, ih]
      simp [Except.toOption]
    | error e =>
      rw [List.foldl_cons, ih]
      simp [Except.toOption]

/-- `extract_pdf_text` concatenates the texts of the successful pages,
in order; failing pages contribute nothing. -/
theorem extract_pdf_text_eq (pages : List (Except PyStr PyStr)) :
    extract_pdf_text pages = (pages.filterMap Except.toOption).flatten := by
  unfold extract_pdf_text
  rw [extract_pdf_text_go]
  rfl

/-- Dropping the failing pages does not change the successful pages'
texts. -/
theorem filterMap_toOption_filter_isOk (pages : List (Except PyStr PyStr)) :
    (pages.filter Except.isOk).filterMap Except.toOption
      = pages.filterMap Except.toOption := by
  induction pages with
  | nil => rfl
  | cons p rest ih =>
    cases p with
    | ok t => simp [List.filter_cons, Except.isOk, Except.toBool,
        Except.toOption, ih]
    | error e => simp [List.filter_cons, Except.isOk, Except.toBool,
        Except.toOption, ih]

/-- C7: a page whose extraction raises is simply omitted — `process_pdf`
behaves exactly as if the failing pages were absent, so per-page
failures never abort the document — and when the concatenated text of
the successful pages has non-whitespace content and the upload succeeds,
the returned chunk sequence is derived from exactly that
concatenation. -/
theorem process_pdf_page_failures (upload : List Chunk → Except PyStr Nat)
    (pages : List (Except PyStr PyStr)) (d fn : PyStr) :
    process_pdf upload pages d fn
      = process_pdf upload (pages.filter Except.isOk) d fn ∧
    (pyStrip ((pages.filterMap Except.toOption).flatten) ≠ [] →
      ∀ n : Nat,
        upload (tag_chunks d fn
          (chunk_text_default ((pages.filterMap Except.toOption).flatten)))
          = .ok n →
        process_pdf upload pages d fn
          = .ok (tag_chunks d fn
              (chunk_text_default
                ((pages.filterMap Except.toOption).flatten)))) := by
  constructor
  · unfold process_pdf
    rw [extract_pdf_text_eq, extract_pdf_text_eq,
      filterMap_toOption_filter_isOk]
  · intro hne n hn
    unfold process_pdf
    rw [extract_pdf_text_eq]
    show (match upload (tag_chunks d fn (chunk_text_default
        (if pyStrip ((pages.filterMap Except.toOption).flatten) = []
          then PDF_SENTINEL
          else (pages.filterMap Except.toOption).flatten))) with
      | Except.error e => Except.error ("Error processing PDF: ".data ++ e)
      | Except.ok _ => Except.ok (tag_chunks d fn (chunk_text_default
          (if pyStrip ((pages.filterMap Except.toOption).flatten) = []
            then PDF_SENTINEL
            else (pages.filterMap Except.toOption).flatten))))
      = _
    rw [if_neg hne, hn]

/-- Witness for C7: a three-page PDF whose middle page raises still
yields the chunks of pages 1 and 3's concatenated text. -/
theorem process_pdf_page_failures_witness :
    process_pdf (fun _ => Except.ok 1)
        [Except.ok "hello ".data, Except.error "boom".data,
          Except.ok "world".data] "d1".data "a.pdf".data
      = .ok (tag_chunks "d1".data "a.pdf".data
          (chunk_text_default
            (([Except.ok "hello ".data, Except.error "boom".data,
                Except.ok "world".data].filterMap
              Except.toOption).flatten))) :=
  (process_pdf_page_failures (fun _ => Except.ok 1)
    [Except.ok "hello ".data, Except.error "boom".data,
      Except.ok "world".data] "d1".data "a.pdf".data).2 (by decide) 1 rfl

/-- C8: when OCR yields only whitespace, `process_image` substitutes the
fixed sentinel rather than failing, and ingestion continues by chunking
that sentinel — which, being shorter than the window, becomes the single
chunk with chunk_id 0. -/
theorem process_image_sentinel (upload : List Chunk → Except PyStr Nat)
    (ocr_text d fn : PyStr) (hws : pyStrip ocr_text = []) :
    ∀ n : Nat, upload [⟨d, fn, 0, IMAGE_SENTINEL⟩] = .ok n →
      process_image upload ocr_text d fn = .ok [⟨d, fn, 0, IMAGE_SENTINEL⟩] := by
  intro n hn
  have hct : chunk_text_default IMAGE_SENTINEL = [IMAGE_SENTINEL] := by
    unfold chunk_text_default
    rw [chunk_text_short _ _ _ _ (by decide), if_neg (by decide)]
  have htag : tag_chunks d fn [IMAGE_SENTINEL] = [⟨d, fn, 0, IMAGE_SENTINEL⟩] :=
    rfl
  unfold process_image
  show (match upload (tag_chunks d fn (chunk_text_default
      (if pyStrip ocr_text = [] then IMAGE_SENTINEL else ocr_text))) with
    | Except.error e => Except.error ("Error processing image: ".data ++ e)
    | Except.ok _ => Except.ok (tag_chunks d fn (chunk_text_default
        (if pyStrip ocr_text = [] then IMAGE_SENTINEL else ocr_text)))) = _
  rw [if_pos hws, hct, htag, hn]

/-- Witness for C8: an OCR result of one space produces the sentinel
chunk. -/
theorem process_image_sentinel_witness :
    process_image (fun _ => Except.ok 1) [' '] "d1".data "img.png".data
      = .ok [⟨"d1".data, "img.png".data, 0, IMAGE_SENTINEL⟩] :=
  process_image_sentinel (fun _ => Except.ok 1) [' '] "d1".data
    "img.png".data (by decide) 1 rfl
